import Mathlib

/-!
Verification development for the s3 load-generation tool (src/src/main.rs).

The Rust program is shallowly embedded: pure computations become Lean
functions, the storage service and the tokio runtime become explicit
oracles (functions supplied as arguments), machine integers (usize, u64)
become Nat, and the f64 latency accumulator becomes an exact rational.
Rust panics (division by zero, checked-subtraction overflow) are modelled
as explicit panic results.  Every definition is translated from the source
file; line numbers in the doc comments refer to src/src/main.rs.
-/

deriving instance DecidableEq for Except

/-- Model of aws_sdk_s3 CompletedPart as built at lines 241-246: a part
number and the content tag (e_tag, defaulted to the empty string when the
service returns none, mirroring unwrap_or_default). -/
structure CompletedPart where
  part_number : Nat
  e_tag : String
deriving DecidableEq, Repr

/-- Outcome of one spawned part-upload task (lines 205-225) as observed by
the join at lines 235-239: the task panicked (JoinError), the upload_part
call failed, or it succeeded with an optional e_tag. -/
inductive PartTaskOutcome where
  | panicked
  | failed (msg : String)
  | ok (etagOpt : Option String)
deriving DecidableEq, Repr

/-- Environment oracle for one multipart upload: the response to
create_multipart_upload (line 180-188, upload_id is optional in the
response), the outcome of the part-upload task for each part number, and
the response to complete_multipart_upload for a given part list
(lines 258-266). -/
structure MpClient where
  createRes : Except String (Option String)
  partRes : Nat → PartTaskOutcome
  completeRes : List CompletedPart → Except String Unit

/-- Result of running put_object_multipart: normal return values of the
Rust function together with a panic case (the Rust function has no
catch_unwind, so a panic propagates). -/
inductive MpOutcome where
  | panicked
  | err (msg : String)
  | ok (bytes : Nat)
deriving DecidableEq, Repr

/-- Observable trace of one put_object_multipart run: how many spawned
part tasks were awaited (task.await executions at line 236), the part list
submitted to complete_multipart_upload (none when no completion request is
ever sent), and the returned outcome. -/
structure MpRun where
  awaitedTasks : Nat
  submitted : Option (List CompletedPart)
  outcome : MpOutcome
deriving DecidableEq, Repr

/-- data.chunks(part_size) at line 195: consecutive chunks of part_size
elements, the last chunk possibly shorter.  Structural recursion on a fuel
bound (the list length) so the function computes by rfl; the caller
put_object_multipart only reaches it with part_size ≥ 1, for which the
fuel is sufficient. -/
def chunkGo (part_size : Nat) : Nat → List Nat → List (List Nat)
  | _, [] => []
  | 0, _ :: _ => []
  | fuel + 1, x :: xs => (x :: xs).take part_size :: chunkGo part_size fuel ((x :: xs).drop part_size)

/-- data.chunks(part_size), entered with enough fuel. -/
def chunkList (part_size : Nat) (data : List Nat) : List (List Nat) :=
  chunkGo part_size data.length data

/-- The sort at line 250: completed_parts.sort_by_key(|p| p.part_number()),
a stable sort by ascending part number. -/
def sortParts (l : List CompletedPart) : List CompletedPart :=
  List.insertionSort (fun a b => a.part_number ≤ b.part_number) l

/-- True when a part task completed successfully. -/
def partOk : PartTaskOutcome → Bool
  | .ok _ => true
  | _ => false

/-- The CompletedPart built at lines 241-246 for a part number whose task
returned ok (e_tag unwrap_or_default). -/
def mkCompletedPart (cl : MpClient) (pn : Nat) : CompletedPart :=
  match cl.partRes pn with
  | .ok etagOpt => { part_number := pn, e_tag := etagOpt.getD "" }
  | _ => { part_number := pn, e_tag := "" }

/-- The join loop at lines 234-247: await each spawned task in launch
order; the two context(...)? operators return from the function at the
first panicked or failed task.  Returns the number of task.await
executions together with either the error or the accumulated
completed_parts vector. -/
def collectParts (cl : MpClient) : List Nat → List CompletedPart → Nat × Except String (List CompletedPart)
  | [], acc => (0, .ok acc)
  | pn :: rest, acc =>
    match cl.partRes pn with
    | .panicked => (1, .error "Upload part task panicked")
    | .failed _ => (1, .error "Failed to upload part")
    | .ok etagOpt =>
      let r := collectParts cl rest (acc ++ [{ part_number := pn, e_tag := etagOpt.getD "" }])
      (r.1 + 1, r.2)

/-- put_object_multipart, lines 167-270.  total_size = data.len();
num_parts = (total_size + part_size - 1) / part_size panics when
part_size = 0 (division by zero; with empty data the usize subtraction
also overflows), modelled as the panicked outcome.  Otherwise: initiate
the session (failure or a missing upload_id aborts with no parts
attempted), spawn one task per chunk with part numbers 1..N in chunk
order, join them in launch order (collectParts), sort the collected parts
by part number, and submit the completion request; success returns
total_size. -/
def put_object_multipart (cl : MpClient) (data : List Nat) (part_size : Nat) : MpRun :=
  if part_size = 0 then
    { awaitedTasks := 0, submitted := none, outcome := .panicked }
  else
    match cl.createRes with
    | .error e => { awaitedTasks := 0, submitted := none, outcome := .err e }
    | .ok none => { awaitedTasks := 0, submitted := none, outcome := .err "No upload ID" }
    | .ok (some _) =>
      match collectParts cl (List.range' 1 (chunkList part_size data).length) [] with
      | (k, .error e) => { awaitedTasks := k, submitted := none, outcome := .err e }
      | (k, .ok completed_parts) =>
        match cl.completeRes (sortParts completed_parts) with
        | .error e =>
          { awaitedTasks := k, submitted := some (sortParts completed_parts), outcome := .err e }
        | .ok _ =>
          { awaitedTasks := k, submitted := some (sortParts completed_parts),
            outcome := .ok data.length }

/-- Which upload path a spawned PUT task takes. -/
inductive PutPath where
  | simple
  | multipart
deriving DecidableEq, Repr

/-- The PUT path selection inside the spawned task at lines 393-397 of
run_put_benchmark: put_object_simple when disable_multipart or
object_size < part_size, put_object_multipart otherwise. -/
def choose_put_path (disable_multipart : Bool) (object_size part_size : Nat) : PutPath :=
  if disable_multipart = true ∨ object_size < part_size then .simple else .multipart

/-- Join result of one benchmark task as seen by the result-collection
loops (lines 418-435, 563-580, 662-679): the task panicked, or it
completed with an operation result and a latency in milliseconds (the f64
latency is modelled exactly as a rational). -/
inductive TaskJoin where
  | panicked
  | completed (res : Except String Nat) (latency_ms : ℚ)

/-- State of the tokio semaphore (line 356/466/610) together with the
number of spawned benchmark tasks currently holding a permit: available is
the count of free permits, inFlight the count of operations whose
acquire_owned permit has not yet been dropped. -/
structure GateState where
  available : Nat
  inFlight : Nat
deriving DecidableEq, Repr

/-- Transitions of the benchmark driver that touch the semaphore.
spawn models lines 382-403 / 530-547 / 634-646: acquire_owned suspends
until a permit is free (guard 0 < available), then the permit moves into
the spawned task.  finish models the unconditional drop(permit) at
line 399/545/644, which runs after the operation result - success,
failure, or (by unwinding) panic - so a release transition exists for
every possible TaskJoin value and no other way to end a task exists. -/
inductive BenchStep : GateState → GateState → Prop where
  | spawn (s : GateState) (h : 0 < s.available) :
      BenchStep s { available := s.available - 1, inFlight := s.inFlight + 1 }
  | finish (s : GateState) (r : TaskJoin) (h : 0 < s.inFlight) :
      BenchStep s { available := s.available + 1, inFlight := s.inFlight - 1 }

/-- Reachable driver states for concurrency limit c: the semaphore starts
with c permits (Semaphore::new(concurrent)) and no task in flight. -/
inductive BenchReachable (c : Nat) : GateState → Prop where
  | init : BenchReachable c { available := c, inFlight := 0 }
  | step {s t : GateState} : BenchReachable c s → BenchStep s t → BenchReachable c t

/-- The Stats record, lines 93-99, with the f64 fields as rationals. -/
structure Stats where
  operations : Nat
  bytes_transferred : Nat
  errors : Nat
  duration_secs : ℚ
  total_latency_ms : ℚ

/-- The average-latency computation of Stats::print, lines 105-110:
successful = operations - errors (Nat subtraction, as the u64 in Rust),
average = total latency / successful when successful > 0, else 0. -/
def Stats.avg_latency_ms (s : Stats) : ℚ :=
  if 0 < s.operations - s.errors then
    s.total_latency_ms / ((s.operations - s.errors : Nat) : ℚ)
  else 0

/-- One step of the result-collection loop of run_put_benchmark
(lines 418-435; run_get_benchmark 563-580 is identical): a successful
task adds its byte count and its latency, a failed or panicked task only
increments errors (its latency is dropped).  Accumulator:
(bytes_transferred, errors, total_latency_ms). -/
def drainStep (acc : Nat × Nat × ℚ) (r : TaskJoin) : Nat × Nat × ℚ :=
  match r with
  | .panicked => (acc.1, acc.2.1 + 1, acc.2.2)
  | .completed (.error _) _ => (acc.1, acc.2.1 + 1, acc.2.2)
  | .completed (.ok size) lat => (acc.1 + size, acc.2.1, acc.2.2 + lat)

/-- The Stats value built at lines 441-447 after draining all tasks:
operations = number of spawned tasks (operation_count is incremented once
per pushed task, so it equals the length of the drained list), the other
counters come from the drain fold. -/
def collectStats (results : List TaskJoin) (dur : ℚ) : Stats :=
  let a := results.foldl drainStep (0, 0, 0)
  { operations := results.length
    bytes_transferred := a.1
    errors := a.2.1
    duration_secs := dur
    total_latency_ms := a.2.2 }

/-- One list_objects_v2 response, lines 324-331: the contents entries
(each with an optional key, as obj.key() returns Option), whether the
listing is truncated, and the next continuation token. -/
structure ListPage where
  keys : List (Option String)
  is_truncated : Option Bool
  next_token : Option String

/-- The pagination loop of list_objects, lines 312-336: issue a request
carrying the previous continuation token (none on the first page), add
the page item count, and loop while is_truncated == Some(true), taking
the next token from the response.  The fuel argument only bounds the
recursion; the service is assumed to end pagination within the supplied
fuel (fuel exhaustion is reported as an error the Rust loop cannot
produce). -/
def listObjectsGo (fetch : Option String → Except String ListPage) : Nat → Option String → Nat → Except String Nat
  | 0, _, _ => .error "pagination did not terminate"
  | fuel + 1, token, count =>
    match fetch token with
    | .error e => .error e
    | .ok page =>
      let count := count + page.keys.length
      if page.is_truncated = some true then
        listObjectsGo fetch fuel page.next_token count
      else
        .ok count

/-- list_objects, lines 306-340: run the pagination loop from no token
and count 0; success returns the accumulated item count. -/
def list_objects (fetch : Option String → Except String ListPage) (fuel : Nat) : Except String Nat :=
  listObjectsGo fetch fuel none 0

/-- A pagination chain: starting from a given token, fetch yields exactly
these pages in order, every page but the last reports is_truncated =
Some(true) and links to the next via its continuation token, and the last
page does not report truncation. -/
inductive FetchChain (fetch : Option String → Except String ListPage) : Option String → List ListPage → Prop where
  | last {t : Option String} {p : ListPage} :
      fetch t = .ok p → ¬ p.is_truncated = some true → FetchChain fetch t [p]
  | cons {t : Option String} {p : ListPage} {ps : List ListPage} :
      fetch t = .ok p → p.is_truncated = some true →
      FetchChain fetch p.next_token ps → FetchChain fetch t (p :: ps)

/-- Environment oracle for one GET benchmark run: the list_objects_v2
response for a given continuation token (used by the pre-enumeration at
lines 483-507), the get_object response for a key (line 272-286), and the
get_object response for a key with a byte range (lines 288-304, range
given as first and last byte offset). -/
structure GetClient where
  fetchPage : Option String → Except String ListPage
  getFull : String → Except String Nat
  getRange : String → Nat → Nat → Except String Nat

/-- get_object_range, lines 288-304: builds the header
"bytes=0-{range_bytes - 1}".  With range_bytes = 0 the usize subtraction
overflows, a panic under checked arithmetic, modelled as none; otherwise
the ranged get_object request is issued for bytes 0 to range_bytes - 1. -/
def get_object_range (cl : GetClient) (key : String) (range_bytes : Nat) : Option (Except String Nat) :=
  if range_bytes = 0 then none
  else some (cl.getRange key 0 (range_bytes - 1))

/-- The per-task dispatch of run_get_benchmark, lines 539-543:
get_object_range when a range length is configured (whatever its value),
full get_object otherwise. -/
def get_dispatch (cl : GetClient) (range_bytes : Option Nat) (key : String) : Option (Except String Nat) :=
  match range_bytes with
  | some bytes => get_object_range cl key bytes
  | none => some (cl.getFull key)

/-- The pre-enumeration loop of run_get_benchmark, lines 481-507: page
through list_objects_v2 carrying the continuation token, collecting the
keys that are present (obj.key() returning Some).  Fuel as in
listObjectsGo. -/
def enumObjectsGo (fetch : Option String → Except String ListPage) : Nat → Option String → List String → Except String (List String)
  | 0, _, _ => .error "pagination did not terminate"
  | fuel + 1, token, objects =>
    match fetch token with
    | .error e => .error e
    | .ok page =>
      let objects := objects ++ page.keys.filterMap id
      if page.is_truncated = some true then
        enumObjectsGo fetch fuel page.next_token objects
      else
        .ok objects

/-- Result of a GET benchmark run that got past setup: the number of
operations launched by the timed loop and the join results drained from
them. -/
structure GetRunResult where
  opsLaunched : Nat
  outcomes : List TaskJoin

/-- The timed loop of run_get_benchmark, lines 529-556, with the
time-dependent part abstracted: iters is the number of iterations the
wall clock admits, and perform gives the join result of the task spawned
for a key.  Iteration i fetches objects[object_index % objects.len()]
with object_index = i (round-robin; getD is safe because the loop is only
reached with a non-empty object list). -/
def getTimedLoop (objects : List String) (perform : String → TaskJoin) (iters : Nat) : List TaskJoin :=
  (List.range iters).map (fun i => perform (objects.getD (i % objects.length) ""))

/-- run_get_benchmark, lines 454-597, up to the drained outcomes:
pre-enumerate the objects under the configured prefix once; if the
enumeration fails the run fails; if it yields no objects the run bails
out at lines 509-511 with the "No objects found" setup error before the
timed loop, so no operation is launched and no outcome recorded; otherwise
run the timed loop. -/
def run_get_benchmark (cl : GetClient) (fuel : Nat) (perform : String → TaskJoin) (iters : Nat) : Except String GetRunResult :=
  match enumObjectsGo cl.fetchPage fuel none [] with
  | .error e => .error e
  | .ok objects =>
    if objects.isEmpty then
      .error "No objects found with prefix. Please run PUT benchmark first."
    else
      let outcomes := getTimedLoop objects perform iters
      .ok { opsLaunched := iters, outcomes := outcomes }


/-- Concrete oracle for witness runs: every part upload and the whole
protocol succeed. -/
def mpClientAllOk : MpClient :=
  { createRes := .ok (some "uid-2")
    partRes := fun _ => .ok (some "etag")
    completeRes := fun _ => .ok () }

/-- Concrete oracle: the session is created but the task for part 1 fails
while the task for part 2 succeeds. -/
def mpClientFirstPartFails : MpClient :=
  { createRes := .ok (some "uid-1")
    partRes := fun pn => if pn = 1 then .failed "boom" else .ok (some "etag")
    completeRes := fun _ => .ok () }

/-- Concrete oracle for a GET run whose listing returns no objects. -/
def getClientEmpty : GetClient :=
  { fetchPage := fun _ => .ok { keys := [], is_truncated := none, next_token := none }
    getFull := fun _ => .ok 0
    getRange := fun _ _ _ => .ok 0 }

/-- First page of a two-page listing: 1000 items, truncated. -/
def pageA : ListPage :=
  { keys := List.replicate 1000 (some "k"), is_truncated := some true, next_token := some "t" }

/-- Second page of a two-page listing: 250 items, final. -/
def pageB : ListPage :=
  { keys := List.replicate 250 (some "k"), is_truncated := some false, next_token := none }

/-- Concrete listing service returning pageA for the first request and
pageB once a continuation token is presented. -/
def fetchTwoPages : Option String → Except String ListPage
  | none => .ok pageA
  | some _ => .ok pageB

/-- A task counts as a successful operation exactly when it completed
with an Ok result (lines 421-425). -/
def isSuccess : TaskJoin → Bool
  | .completed (.ok _) _ => true
  | _ => false

/-- Refinement reference, following the spec words: the number of
successful operations of a run. -/
def spec_success_count (rs : List TaskJoin) : Nat := rs.countP isSuccess

/-- The latency contributed by one task: only successful tasks carry
their latency into the accumulator. -/
def successLatency : TaskJoin → Option ℚ
  | .completed (.ok _) lat => some lat
  | _ => none

/-- Refinement reference, following the spec words: the sum of the
latencies of the successful operations only. -/
def spec_success_latency_sum (rs : List TaskJoin) : ℚ :=
  (rs.filterMap successLatency).sum

/-! ### Helper lemmas: chunking arithmetic -/

/-- A nonempty payload yields at least one chunk. -/
lemma numChunks_pos {L P : Nat} (hP : 1 ≤ P) (hL : 1 ≤ L) : 1 ≤ (L + P - 1) / P := by
  rw [Nat.le_div_iff_mul_le (by omega)]
  omega

/-- A payload of at most one part size yields exactly one chunk. -/
lemma numChunks_one {L P : Nat} (hP : 1 ≤ P) (hL1 : 1 ≤ L) (hLP : L ≤ P) :
    (L + P - 1) / P = 1 := by
  have hz : (L - 1) / P = 0 := Nat.div_eq_of_lt (by omega)
  have h1 : L + P - 1 = P * 1 + (L - 1) := by omega
  rw [h1, Nat.mul_add_div (by omega), hz]

/-- Chunk count decreases by one when one full part is removed. -/
lemma numChunks_succ {L P : Nat} (hP : 1 ≤ P) (hLP : P < L) :
    (L + P - 1) / P = ((L - P) + P - 1) / P + 1 := by
  have h1 : L + P - 1 = ((L - P) + P - 1) + P := by omega
  rw [h1, Nat.add_div_right _ (by omega)]

/-- The last chunk has L mod P elements, except that it is a full part
when P divides L. -/
lemma lastChunk_mod {L P : Nat} (hP : 1 ≤ P) (hL : 1 ≤ L) :
    L - P * ((L + P - 1) / P - 1) = if L % P = 0 then P else L % P := by
  have hqr : P * (L / P) + L % P = L := Nat.div_add_mod L P
  have hrP : L % P < P := Nat.mod_lt _ (by omega)
  by_cases h0 : L % P = 0
  · have hq1 : 1 ≤ L / P := by
      rcases Nat.eq_zero_or_pos (L / P) with h | h
      · rw [h] at hqr
        omega
      · exact h
    have hz : (P - 1) / P = 0 := Nat.div_eq_of_lt (by omega)
    have hN : (L + P - 1) / P = L / P := by
      have h1 : L + P - 1 = P * (L / P) + (P - 1) := by omega
      rw [h1, Nat.mul_add_div (by omega), hz]
      exact Nat.add_zero _
    rw [hN, if_pos h0]
    have h2 : P * (L / P - 1) + P = P * (L / P) := by
      rcases Nat.exists_eq_add_of_le hq1 with ⟨q', hq'⟩
      have hq : L / P = q' + 1 := by omega
      rw [hq]
      simp [Nat.mul_succ]
    omega
  · have hz : (L % P - 1) / P = 0 := Nat.div_eq_of_lt (by omega)
    have hN : (L + P - 1) / P = L / P + 1 := by
      have h2 : L + P - 1 = (L - 1) + P := by omega
      have h1 : L - 1 = P * (L / P) + (L % P - 1) := by
        revert hqr hrP h0
        generalize P * (L / P) = m
        generalize L % P = r
        intro hqr hrP h0
        omega
      rw [h2, Nat.add_div_right _ (by omega : 0 < P), h1, Nat.mul_add_div (by omega), hz]
    rw [hN, if_neg h0]
    have h5 : L / P + 1 - 1 = L / P := Nat.add_sub_cancel _ _
    rw [h5]
    omega

/-- chunkGo on the empty list returns no chunks, whatever the fuel. -/
lemma chunkGo_nil (P : Nat) (fuel : Nat) : chunkGo P fuel [] = [] := by
  cases fuel <;> rfl

/-- Chunk sizes produced by chunkGo with sufficient fuel: all chunks hold
part_size elements except the final one, which holds the remainder. -/
lemma chunkGo_map_length {P : Nat} (hP : 1 ≤ P) :
    ∀ (fuel : Nat) (l : List Nat), l ≠ [] → l.length ≤ fuel →
      (chunkGo P fuel l).map List.length =
        List.replicate ((l.length + P - 1) / P - 1) P ++
          [l.length - P * ((l.length + P - 1) / P - 1)] := by
  intro fuel
  induction fuel with
  | zero =>
    intro l hne hlen
    cases l with
    | nil => exact absurd rfl hne
    | cons x xs => simp at hlen
  | succ fuel ih =>
    intro l hne hlen
    cases l with
    | nil => exact absurd rfl hne
    | cons x xs =>
      have hpos : 1 ≤ (x :: xs).length := by simp
      by_cases hle : (x :: xs).length ≤ P
      · have hdrop : (x :: xs).drop P = [] := List.drop_eq_nil_of_le hle
        have hN1 : ((x :: xs).length + P - 1) / P = 1 := numChunks_one hP hpos hle
        have htake : ((x :: xs).take P).length = (x :: xs).length := by
          rw [List.length_take]
          omega
        simp only [chunkGo, hdrop, chunkGo_nil, List.map_cons, List.map_nil, htake, hN1]
        simp
      · push_neg at hle
        have hdLen : ((x :: xs).drop P).length = (x :: xs).length - P := by
          rw [List.length_drop]
        have hdne : (x :: xs).drop P ≠ [] := by
          intro hcon
          have h0 : (x :: xs).length - P = 0 := by
            rw [← hdLen, hcon]
            rfl
          omega
        have hdlen : ((x :: xs).drop P).length ≤ fuel := by
          rw [hdLen]
          have h2 : (x :: xs).length ≤ fuel + 1 := hlen
          omega
        have ihd := ih ((x :: xs).drop P) hdne hdlen
        rw [hdLen] at ihd
        set M := (((x :: xs).length - P) + P - 1) / P with hMdef
        have hN : ((x :: xs).length + P - 1) / P = M + 1 := numChunks_succ hP hle
        have hMpos : 1 ≤ M := numChunks_pos hP (by omega)
        have htake : ((x :: xs).take P).length = P := by
          rw [List.length_take]
          omega
        simp only [chunkGo, List.map_cons, htake, ihd, hN]
        have h1 : M + 1 - 1 = (M - 1) + 1 := by omega
        rw [h1, List.replicate_succ, List.cons_append]
        have h3 : (x :: xs).length - P - P * (M - 1) = (x :: xs).length - P * ((M - 1) + 1) := by
          rw [Nat.mul_succ]
          omega
        rw [h3]

/-- chunkList characterization: chunk sizes for a nonempty payload. -/
lemma chunkList_map_length {P : Nat} (hP : 1 ≤ P) (data : List Nat) (hne : data ≠ []) :
    (chunkList P data).map List.length =
      List.replicate ((data.length + P - 1) / P - 1) P ++
        [data.length - P * ((data.length + P - 1) / P - 1)] :=
  chunkGo_map_length hP data.length data hne (Nat.le_refl _)

/-- The number of chunks equals the num_parts expression of line 175. -/
lemma chunkList_length {P : Nat} (hP : 1 ≤ P) (data : List Nat) :
    (chunkList P data).length = (data.length + P - 1) / P := by
  rcases eq_or_ne data [] with hd | hd
  · subst hd
    have hz : (0 + P - 1) / P = 0 := Nat.div_eq_of_lt (by omega)
    simp only [List.length_nil, hz]
    rfl
  · have h := congrArg List.length (chunkList_map_length hP data hd)
    have hpos : 1 ≤ (data.length + P - 1) / P := by
      apply numChunks_pos hP
      cases data with
      | nil => exact absurd rfl hd
      | cons x xs => simp
    rw [List.length_map, List.length_append, List.length_replicate, List.length_singleton] at h
    omega

/-! ### Helper lemmas: the part-collection join loop and the sort -/

instance : IsTotal CompletedPart (fun a b => a.part_number ≤ b.part_number) :=
  ⟨fun a b => Nat.le_total a.part_number b.part_number⟩

instance : IsTrans CompletedPart (fun a b => a.part_number ≤ b.part_number) :=
  ⟨fun _ _ _ hab hbc => Nat.le_trans hab hbc⟩

/-- Sorting does not change the multiset of parts. -/
lemma sortParts_perm (l : List CompletedPart) : (sortParts l).Perm l :=
  List.perm_insertionSort _ l

/-- The sorted part list is sorted by ascending part number. -/
lemma sortParts_sorted (l : List CompletedPart) :
    (sortParts l).Sorted (fun a b => a.part_number ≤ b.part_number) :=
  List.sorted_insertionSort _ l

/-- Whatever order the parts were collected in, sorting them restores
exactly the ascending sequence of part numbers. -/
lemma sortParts_map_eq_range (l : List CompletedPart) (n : Nat)
    (h : (l.map CompletedPart.part_number).Perm (List.range' 1 n)) :
    (sortParts l).map CompletedPart.part_number = List.range' 1 n := by
  have hperm : ((sortParts l).map CompletedPart.part_number).Perm (List.range' 1 n) :=
    ((sortParts_perm l).map CompletedPart.part_number).trans h
  have hsorted : ((sortParts l).map CompletedPart.part_number).Sorted (· ≤ ·) := by
    rw [List.Sorted, List.pairwise_map]
    exact sortParts_sorted l
  have hrange : (List.range' 1 n).Sorted (· ≤ ·) := List.pairwise_le_range' 1 n
  exact List.eq_of_perm_of_sorted hperm hsorted hrange

/-- When every part task succeeds, the join loop awaits all N tasks and
collects the parts in launch order. -/
lemma collectParts_all_ok (cl : MpClient) (pns : List Nat) :
    ∀ acc : List CompletedPart,
      (∀ pn ∈ pns, partOk (cl.partRes pn) = true) →
      collectParts cl pns acc = (pns.length, .ok (acc ++ pns.map (mkCompletedPart cl))) := by
  induction pns with
  | nil =>
    intro acc _
    simp [collectParts]
  | cons pn rest ih =>
    intro acc h
    have hpn := h pn (by simp)
    cases hres : cl.partRes pn with
    | panicked =>
      rw [hres] at hpn
      simp [partOk] at hpn
    | failed msg =>
      rw [hres] at hpn
      simp [partOk] at hpn
    | ok etagOpt =>
      have hmk : mkCompletedPart cl pn = { part_number := pn, e_tag := etagOpt.getD "" } := by
        simp [mkCompletedPart, hres]
      have hrest := ih (acc ++ [{ part_number := pn, e_tag := etagOpt.getD "" }])
        (fun q hq => h q (by simp [hq]))
      simp [collectParts, hres, hrest, hmk]

/-- When some part task fails or panics, the join loop stops at the first
such task: it awaits exactly (index of the first bad task) + 1 tasks and
returns its error. -/
lemma collectParts_first_bad (cl : MpClient) (pns : List Nat) :
    ∀ acc : List CompletedPart,
      (∃ pn ∈ pns, partOk (cl.partRes pn) = false) →
      ∃ e, collectParts cl pns acc =
        ((pns.findIdx fun pn => ! partOk (cl.partRes pn)) + 1, .error e) := by
  induction pns with
  | nil =>
    intro acc h
    simp at h
  | cons pn rest ih =>
    intro acc h
    cases hres : cl.partRes pn with
    | panicked =>
      refine ⟨"Upload part task panicked", ?_⟩
      have hfind : ((pn :: rest).findIdx fun q => ! partOk (cl.partRes q)) = 0 := by
        rw [List.findIdx_cons]
        simp [hres, partOk]
      rw [hfind]
      simp [collectParts, hres]
    | failed msg =>
      refine ⟨"Failed to upload part", ?_⟩
      have hfind : ((pn :: rest).findIdx fun q => ! partOk (cl.partRes q)) = 0 := by
        rw [List.findIdx_cons]
        simp [hres, partOk]
      rw [hfind]
      simp [collectParts, hres]
    | ok etagOpt =>
      have hbadrest : ∃ q ∈ rest, partOk (cl.partRes q) = false := by
        rcases h with ⟨q, hq, hqf⟩
        rcases List.mem_cons.mp hq with rfl | hmem
        · rw [hres] at hqf
          simp [partOk] at hqf
        · exact ⟨q, hmem, hqf⟩
      rcases ih (acc ++ [{ part_number := pn, e_tag := etagOpt.getD "" }]) hbadrest with ⟨e, he⟩
      refine ⟨e, ?_⟩
      have hfind : ((pn :: rest).findIdx fun q => ! partOk (cl.partRes q)) =
          (rest.findIdx fun q => ! partOk (cl.partRes q)) + 1 := by
        rw [List.findIdx_cons]
        simp [hres, partOk]
      rw [hfind]
      simp [collectParts, hres, he]

/-- Whenever the join loop returns a completed-parts vector, its part
numbers are exactly the launched part numbers, in launch order. -/
lemma collectParts_ok_parts (cl : MpClient) (pns : List Nat) :
    ∀ (acc : List CompletedPart) (k : Nat) (out : List CompletedPart),
      collectParts cl pns acc = (k, .ok out) →
      out.map CompletedPart.part_number = acc.map CompletedPart.part_number ++ pns := by
  induction pns with
  | nil =>
    intro acc k out h
    simp [collectParts] at h
    rw [← h.2]
    simp
  | cons pn rest ih =>
    intro acc k out h
    cases hres : cl.partRes pn with
    | panicked => simp [collectParts, hres] at h
    | failed msg => simp [collectParts, hres] at h
    | ok etagOpt =>
      simp only [collectParts, hres] at h
      rcases hc : collectParts cl rest (acc ++ [{ part_number := pn, e_tag := etagOpt.getD "" }])
        with ⟨k', res⟩
      rw [hc] at h
      simp at h
      rcases h with ⟨hk, hres2⟩
      have hih := ih (acc ++ [{ part_number := pn, e_tag := etagOpt.getD "" }]) k' out
        (by rw [hc, hres2])
      rw [hih]
      simp

/-! ### Helper lemmas: put_object_multipart case analysis -/

/-- With part_size = 0 the num_parts computation panics before any
request is issued. -/
lemma put_object_multipart_zero (cl : MpClient) (data : List Nat) :
    put_object_multipart cl data 0 =
      { awaitedTasks := 0, submitted := none, outcome := .panicked } := by
  simp [put_object_multipart]

/-- With part_size ≥ 1 the function never panics. -/
lemma put_object_multipart_no_panic (cl : MpClient) (data : List Nat) (P : Nat) (hP : P ≠ 0) :
    (put_object_multipart cl data P).outcome ≠ .panicked := by
  unfold put_object_multipart
  rw [if_neg hP]
  cases hcr : cl.createRes with
  | error e => simp
  | ok uo =>
    cases uo with
    | none => simp
    | some uid =>
      rcases hc : collectParts cl (List.range' 1 (chunkList P data).length) [] with ⟨k, res⟩
      cases res with
      | error e => simp [hc]
      | ok parts =>
        cases hcm : cl.completeRes (sortParts parts) with
        | error e => simp [hc, hcm]
        | ok u => simp [hc, hcm]

/-- A successful multipart upload returns exactly the payload length. -/
lemma put_object_multipart_ok_bytes (cl : MpClient) (data : List Nat) (P n : Nat)
    (h : (put_object_multipart cl data P).outcome = .ok n) : n = data.length := by
  unfold put_object_multipart at h
  by_cases hP : P = 0
  · rw [if_pos hP] at h
    simp at h
  · rw [if_neg hP] at h
    cases hcr : cl.createRes with
    | error e =>
      rw [hcr] at h
      simp at h
    | ok uo =>
      rw [hcr] at h
      cases uo with
      | none => simp at h
      | some uid =>
        rcases hc : collectParts cl (List.range' 1 (chunkList P data).length) [] with ⟨k, res⟩
        rw [hc] at h
        cases res with
        | error e => simp at h
        | ok parts =>
          cases hcm : cl.completeRes (sortParts parts) with
          | error e =>
            simp [hcm] at h
          | ok u =>
            simp [hcm] at h
            omega

/-- Whenever a completion request is submitted, its part list is the sort
of a collected-parts vector whose part numbers are 1..N in launch order. -/
lemma put_object_multipart_submitted (cl : MpClient) (data : List Nat) (P : Nat)
    (parts : List CompletedPart)
    (h : (put_object_multipart cl data P).submitted = some parts) :
    parts.map CompletedPart.part_number =
      List.range' 1 (chunkList P data).length := by
  unfold put_object_multipart at h
  by_cases hP : P = 0
  · rw [if_pos hP] at h
    simp at h
  · rw [if_neg hP] at h
    cases hcr : cl.createRes with
    | error e =>
      rw [hcr] at h
      simp at h
    | ok uo =>
      rw [hcr] at h
      cases uo with
      | none => simp at h
      | some uid =>
        rcases hc : collectParts cl (List.range' 1 (chunkList P data).length) [] with ⟨k, res⟩
        rw [hc] at h
        cases res with
        | error e => simp at h
        | ok out =>
          have hout : out.map CompletedPart.part_number =
              List.range' 1 (chunkList P data).length := by
            have := collectParts_ok_parts cl (List.range' 1 (chunkList P data).length) [] k out hc
            simpa using this
          have hparts : parts = sortParts out := by
            cases hcm : cl.completeRes (sortParts out) with
            | error e =>
              simp [hcm] at h
              exact h.symm
            | ok u =>
              simp [hcm] at h
              exact h.symm
          rw [hparts]
          apply sortParts_map_eq_range
          rw [hout]

/-- On the failure path (session created, some part task failed or
panicked) the run returns a single error outcome, never submits a
completion request, and awaits tasks only up to and including the first
bad one. -/
lemma put_object_multipart_first_bad (cl : MpClient) (data : List Nat) (P : Nat) (uid : String)
    (hP : P ≠ 0) (hcr : cl.createRes = .ok (some uid))
    (hbad : ∃ pn ∈ List.range' 1 (chunkList P data).length, partOk (cl.partRes pn) = false) :
    ∃ e, put_object_multipart cl data P =
      { awaitedTasks :=
          ((List.range' 1 (chunkList P data).length).findIdx
            fun pn => ! partOk (cl.partRes pn)) + 1,
        submitted := none, outcome := .err e } := by
  rcases collectParts_first_bad cl (List.range' 1 (chunkList P data).length) [] hbad with ⟨e, he⟩
  refine ⟨e, ?_⟩
  unfold put_object_multipart
  rw [if_neg hP, hcr]
  simp [he]

/-! ### Helper lemmas: the admission gate -/

/-- Invariant of the semaphore model: free permits plus permits held by
in-flight tasks always equal the configured limit. -/
lemma benchReachable_sum (c : Nat) :
    ∀ s : GateState, BenchReachable c s → s.available + s.inFlight = c := by
  intro s h
  induction h with
  | init => rfl
  | @step s' t' hr hstep ih =>
    cases hstep with
    | spawn h' =>
      show s'.available - 1 + (s'.inFlight + 1) = c
      omega
    | finish r h' =>
      show s'.available + 1 + (s'.inFlight - 1) = c
      omega

/-! ### Helper definitions and lemmas: stats aggregation -/

/-- The drain fold counts one error per failed or panicked task. -/
lemma drain_errors (rs : List TaskJoin) :
    ∀ acc : Nat × Nat × ℚ,
      (rs.foldl drainStep acc).2.1 = acc.2.1 + rs.countP (fun r => ! isSuccess r) := by
  induction rs with
  | nil =>
    intro acc
    simp
  | cons r rs ih =>
    intro acc
    cases r with
    | panicked =>
      simp [drainStep, ih, List.countP_cons, isSuccess]
      omega
    | completed res lat =>
      cases res with
      | error e =>
        simp [drainStep, ih, List.countP_cons, isSuccess]
        omega
      | ok size =>
        simp [drainStep, ih, List.countP_cons, isSuccess]

/-- The drain fold accumulates exactly the latencies of successful
tasks. -/
lemma drain_latency (rs : List TaskJoin) :
    ∀ acc : Nat × Nat × ℚ,
      (rs.foldl drainStep acc).2.2 = acc.2.2 + spec_success_latency_sum rs := by
  induction rs with
  | nil =>
    intro acc
    simp [spec_success_latency_sum]
  | cons r rs ih =>
    intro acc
    cases r with
    | panicked =>
      simp [drainStep, ih, spec_success_latency_sum, List.filterMap_cons, successLatency]
    | completed res lat =>
      cases res with
      | error e =>
        simp [drainStep, ih, spec_success_latency_sum, List.filterMap_cons, successLatency]
      | ok size =>
        simp [drainStep, ih, spec_success_latency_sum, List.filterMap_cons, successLatency]
        ring

/-- Successes and non-successes partition the drained task list. -/
lemma success_count_partition (rs : List TaskJoin) :
    spec_success_count rs + rs.countP (fun r => ! isSuccess r) = rs.length := by
  induction rs with
  | nil => simp [spec_success_count]
  | cons r rs ih =>
    cases hr : isSuccess r <;>
      simp [spec_success_count, List.countP_cons, hr] at ih ⊢ <;>
      omega

/-! ### Helper lemmas: pagination -/

/-- Running the pagination loop along a fetch chain with enough fuel
returns the accumulated count plus the total item count of all pages. -/
lemma listObjectsGo_chain (fetch : Option String → Except String ListPage)
    {t : Option String} {ps : List ListPage} (hch : FetchChain fetch t ps) :
    ∀ fuel : Nat, ps.length ≤ fuel → ∀ acc : Nat,
      listObjectsGo fetch fuel t acc = .ok (acc + (ps.map fun p => p.keys.length).sum) := by
  induction hch with
  | @last t' p hf hnt =>
    intro fuel hfuel acc
    cases fuel with
    | zero => simp at hfuel
    | succ fuel => simp [listObjectsGo, hf, hnt]
  | @cons t' p ps' hf htr hrest ih =>
    intro fuel hfuel acc
    cases fuel with
    | zero => simp at hfuel
    | succ fuel =>
      have hrec := ih fuel (by simpa using hfuel) (acc + p.keys.length)
      simp [listObjectsGo, hf, htr, hrec]
      omega

/-! ### Claim theorems -/

/-- C1 counterexample: with two launched part tasks of which the first
fails, put_object_multipart awaits only one task before returning, not
all launched tasks — awaitedTasks differs from the launched-task count. -/
theorem c1_counterexample_early_return :
    mpClientFirstPartFails.createRes = .ok (some "uid-1")
    ∧ partOk (mpClientFirstPartFails.partRes 1) = false
    ∧ (chunkList 1 [0, 0]).length = 2
    ∧ (put_object_multipart mpClientFirstPartFails [0, 0] 1).awaitedTasks = 1
    ∧ (put_object_multipart mpClientFirstPartFails [0, 0] 1).awaitedTasks ≠
        (chunkList 1 [0, 0]).length := by
  decide

/-- C1 (amended): when the multipart session is created and some part
task fails or aborts, the whole operation is reported as a single failure
and no completion request is ever submitted; however the function does
not wait for all launched part tasks — it awaits them in launch order and
returns right after the first failed or aborted task. -/
theorem c1_failure_single_error_no_completion (cl : MpClient) (data : List Nat)
    (P : Nat) (uid : String) (hP : 1 ≤ P) (hcr : cl.createRes = .ok (some uid))
    (hbad : ∃ pn ∈ List.range' 1 (chunkList P data).length,
      partOk (cl.partRes pn) = false) :
    (∃ e, (put_object_multipart cl data P).outcome = .err e)
    ∧ (put_object_multipart cl data P).submitted = none
    ∧ (put_object_multipart cl data P).awaitedTasks =
        ((List.range' 1 (chunkList P data).length).findIdx
          fun pn => ! partOk (cl.partRes pn)) + 1 := by
  rcases put_object_multipart_first_bad cl data P uid (by omega) hcr hbad with ⟨e, he⟩
  rw [he]
  exact ⟨⟨e, rfl⟩, rfl, rfl⟩

/-- C1 witness: the amended statement at the concrete failing client. -/
theorem c1_witness :
    (1 ≤ 1)
    ∧ mpClientFirstPartFails.createRes = .ok (some "uid-1")
    ∧ (∃ pn ∈ List.range' 1 (chunkList 1 [0, 0]).length,
        partOk (mpClientFirstPartFails.partRes pn) = false)
    ∧ ((∃ e, (put_object_multipart mpClientFirstPartFails [0, 0] 1).outcome = .err e)
        ∧ (put_object_multipart mpClientFirstPartFails [0, 0] 1).submitted = none
        ∧ (put_object_multipart mpClientFirstPartFails [0, 0] 1).awaitedTasks =
            ((List.range' 1 (chunkList 1 [0, 0]).length).findIdx
              fun pn => ! partOk (mpClientFirstPartFails.partRes pn)) + 1) :=
  ⟨by decide, by decide, by decide,
    c1_failure_single_error_no_completion mpClientFirstPartFails [0, 0] 1 "uid-1"
      (by decide) (by decide) (by decide)⟩

/-- C2: for every concurrency limit c ≥ 1 and every reachable driver
state, the number of operations concurrently holding a permit (and hence
concurrently executing storage calls) never exceeds c; the release
transition exists for every join result, so the permit is returned on
every exit path. -/
theorem c2_concurrency_bounded (c : Nat) (_hc : 1 ≤ c) (s : GateState)
    (hs : BenchReachable c s) : s.inFlight ≤ c := by
  have h := benchReachable_sum c s hs
  omega

/-- C2 witness: with limit 1, after one spawn the reachable state has one
task in flight, which is within the bound. -/
theorem c2_witness :
    (1 ≤ 1) ∧ ({ available := 0, inFlight := 1 } : GateState).inFlight ≤ 1 :=
  ⟨by decide,
    c2_concurrency_bounded 1 (by decide) _
      (BenchReachable.step BenchReachable.init
        (BenchStep.spawn { available := 1, inFlight := 0 } (by decide)))⟩

/-- C3: the part list submitted to the completion request is sorted into
ascending part numbers 1..N whatever order the parts were collected in
(any permutation), and every list the model actually submits carries the
part numbers 1..N in ascending order. -/
theorem c3_completion_sorted :
    (∀ (l : List CompletedPart) (n : Nat),
      ((l.map CompletedPart.part_number).Perm (List.range' 1 n)) →
      (sortParts l).map CompletedPart.part_number = List.range' 1 n)
    ∧ (∀ (cl : MpClient) (data : List Nat) (P : Nat) (parts : List CompletedPart),
      (put_object_multipart cl data P).submitted = some parts →
      parts.map CompletedPart.part_number =
        List.range' 1 (chunkList P data).length) :=
  ⟨sortParts_map_eq_range,
   fun cl data P parts h => put_object_multipart_submitted cl data P parts h⟩

/-- C3 witness: a shuffled two-part list is sorted back to 1, 2, and the
concrete all-ok run submits parts numbered 1, 2. -/
theorem c3_witness :
    ((([⟨2, "b"⟩, ⟨1, "a"⟩] : List CompletedPart).map CompletedPart.part_number).Perm
      (List.range' 1 2))
    ∧ (sortParts [⟨2, "b"⟩, ⟨1, "a"⟩]).map CompletedPart.part_number = List.range' 1 2
    ∧ (put_object_multipart mpClientAllOk [0, 0] 1).submitted =
        some [⟨1, "etag"⟩, ⟨2, "etag"⟩]
    ∧ ([(⟨1, "etag"⟩ : CompletedPart), ⟨2, "etag"⟩]).map CompletedPart.part_number =
        List.range' 1 (chunkList 1 [0, 0]).length :=
  ⟨by decide, c3_completion_sorted.1 _ 2 (by decide), by decide,
   c3_completion_sorted.2 mpClientAllOk [0, 0] 1 _ (by decide)⟩

/-- C4: the multipart path is chosen exactly when multipart is not
disabled and the object size is at least the part size; with object size
1024 and part size 8192 the single-shot path is always taken. -/
theorem c4_put_path_selection (d : Bool) (os ps : Nat) :
    (choose_put_path d os ps = .multipart ↔ (d = false ∧ ps ≤ os))
    ∧ choose_put_path d 1024 8192 = .simple := by
  constructor
  · unfold choose_put_path
    by_cases hcond : d = true ∨ os < ps
    · rw [if_pos hcond]
      constructor
      · intro h
        exact absurd h (by decide)
      · rintro ⟨hd, hle⟩
        rcases hcond with h1 | h2
        · rw [hd] at h1
          exact absurd h1 (by decide)
        · omega
    · rw [if_neg hcond]
      push_neg at hcond
      rcases hcond with ⟨hd, hlt⟩
      exact ⟨fun _ => ⟨by simpa using hd, by omega⟩, fun _ => rfl⟩
  · unfold choose_put_path
    rw [if_pos (Or.inr (by omega))]

/-- C5: for a nonempty payload and part size at least 1: the payload is
split into ceil(L / P) chunks, every chunk holds P bytes except the final
one, which holds L mod P bytes when P does not divide L (and P bytes when
it does); the collected parts carry part numbers 1..N in chunk order; and
a successful multipart upload returns exactly the payload length. -/
theorem c5_chunking (cl : MpClient) (data : List Nat) (P : Nat)
    (hP : 1 ≤ P) (hne : data ≠ []) :
    (chunkList P data).length = (data.length + P - 1) / P
    ∧ (chunkList P data).map List.length =
        List.replicate ((data.length + P - 1) / P - 1) P ++
          [if data.length % P = 0 then P else data.length % P]
    ∧ (∀ (k : Nat) (parts : List CompletedPart),
        collectParts cl (List.range' 1 (chunkList P data).length) [] = (k, .ok parts) →
        parts.map CompletedPart.part_number =
          List.range' 1 ((data.length + P - 1) / P))
    ∧ (∀ n : Nat, (put_object_multipart cl data P).outcome = .ok n → n = data.length) := by
  have hlen := chunkList_length hP data
  have hL1 : 1 ≤ data.length := by
    cases data with
    | nil => exact absurd rfl hne
    | cons x xs => simp
  refine ⟨hlen, ?_, ?_, ?_⟩
  · rw [chunkList_map_length hP data hne, lastChunk_mod hP hL1]
  · intro k parts h
    have hmap := collectParts_ok_parts cl (List.range' 1 (chunkList P data).length) [] k parts h
    simpa [hlen] using hmap
  · intro n h
    exact put_object_multipart_ok_bytes cl data P n h

/-- C5 witness: a 5-byte payload with part size 2 gives 3 chunks of sizes
2, 2, 1, parts numbered 1..3, and the successful upload returns 5. -/
theorem c5_witness :
    (1 ≤ 2) ∧ (([0, 0, 0, 0, 0] : List Nat) ≠ [])
    ∧ ((chunkList 2 [0, 0, 0, 0, 0]).length =
          (([0, 0, 0, 0, 0] : List Nat).length + 2 - 1) / 2
      ∧ (chunkList 2 [0, 0, 0, 0, 0]).map List.length =
          List.replicate ((([0, 0, 0, 0, 0] : List Nat).length + 2 - 1) / 2 - 1) 2 ++
            [if ([0, 0, 0, 0, 0] : List Nat).length % 2 = 0 then 2
             else ([0, 0, 0, 0, 0] : List Nat).length % 2]
      ∧ (∀ (k : Nat) (parts : List CompletedPart),
          collectParts mpClientAllOk (List.range' 1 (chunkList 2 [0, 0, 0, 0, 0]).length) [] =
            (k, .ok parts) →
          parts.map CompletedPart.part_number =
            List.range' 1 ((([0, 0, 0, 0, 0] : List Nat).length + 2 - 1) / 2))
      ∧ (∀ n : Nat,
          (put_object_multipart mpClientAllOk [0, 0, 0, 0, 0] 2).outcome = .ok n →
          n = ([0, 0, 0, 0, 0] : List Nat).length)) :=
  ⟨by decide, by decide, c5_chunking mpClientAllOk [0, 0, 0, 0, 0] 2 (by decide) (by decide)⟩

/-- C6: a GET run whose pre-enumeration yields no objects fails with the
setup error before the timed loop; the error return carries no run result,
so no operation is launched and no outcome is recorded. -/
theorem c6_empty_enumeration_fails_fast (cl : GetClient) (fuel : Nat)
    (perform : String → TaskJoin) (iters : Nat)
    (h : enumObjectsGo cl.fetchPage fuel none [] = .ok []) :
    run_get_benchmark cl fuel perform iters =
      .error "No objects found with prefix. Please run PUT benchmark first." := by
  unfold run_get_benchmark
  rw [h]
  rfl

/-- C6 witness: the concrete empty listing service makes the run bail out
with the setup error. -/
theorem c6_witness :
    enumObjectsGo getClientEmpty.fetchPage 1 none [] = .ok []
    ∧ run_get_benchmark getClientEmpty 1 (fun _ => .panicked) 7 =
        .error "No objects found with prefix. Please run PUT benchmark first." :=
  ⟨rfl, c6_empty_enumeration_fails_fast getClientEmpty 1 (fun _ => .panicked) 7 rfl⟩

/-- C7: the reported average latency is the sum of the latencies of the
successful operations divided by the number of successful operations —
failed and panicked tasks contribute no latency — and it is 0 when no
operation succeeded. -/
theorem c7_average_latency (rs : List TaskJoin) (dur : ℚ) :
    (collectStats rs dur).avg_latency_ms =
      if spec_success_count rs = 0 then 0
      else spec_success_latency_sum rs / (spec_success_count rs : ℚ) := by
  have hs : (collectStats rs dur).errors = rs.countP (fun r => ! isSuccess r) := by
    show (rs.foldl drainStep (0, 0, 0)).2.1 = _
    rw [drain_errors rs (0, 0, 0)]
    simp
  have ht : (collectStats rs dur).total_latency_ms = spec_success_latency_sum rs := by
    show (rs.foldl drainStep (0, 0, 0)).2.2 = _
    rw [drain_latency rs (0, 0, 0)]
    simp
  have hop : (collectStats rs dur).operations = rs.length := by
    simp [collectStats]
  have hpart := success_count_partition rs
  rw [Stats.avg_latency_ms, hs, ht, hop]
  have hsub : rs.length - rs.countP (fun r => ! isSuccess r) = spec_success_count rs := by
    omega
  rw [hsub]
  by_cases h0 : spec_success_count rs = 0
  · rw [if_neg (by omega), if_pos h0]
  · rw [if_pos (by omega), if_neg h0]

/-- C8: list_objects pages through the listing, passing each continuation
token, until a page is not truncated, and on success returns the sum of
the page item counts. -/
theorem c8_list_pagination (fetch : Option String → Except String ListPage)
    (ps : List ListPage) (fuel : Nat) (hch : FetchChain fetch none ps)
    (hfuel : ps.length ≤ fuel) :
    list_objects fetch fuel = .ok ((ps.map fun p => p.keys.length).sum) := by
  have h := listObjectsGo_chain fetch hch fuel hfuel 0
  simpa [list_objects] using h

set_option maxRecDepth 10000 in
/-- C8 witness: two pages of 1000 and 250 items give a single-operation
count of 1250. -/
theorem c8_witness :
    FetchChain fetchTwoPages none [pageA, pageB]
    ∧ ([pageA, pageB].length ≤ 2)
    ∧ list_objects fetchTwoPages 2 = .ok (([pageA, pageB].map fun p => p.keys.length).sum)
    ∧ ([pageA, pageB].map fun p => p.keys.length).sum = 1250 := by
  have hch : FetchChain fetchTwoPages none [pageA, pageB] :=
    FetchChain.cons rfl rfl (FetchChain.last rfl (by decide))
  exact ⟨hch, by decide,
    c8_list_pagination fetchTwoPages [pageA, pageB] 2 hch (by decide),
    by simp [pageA, pageB]⟩

/-- C9: with part_size = 0 put_object_multipart panics (division by zero
in num_parts, and chunks(0) would panic); with part_size ≥ 1 it never
panics; and the driver path selection does not exclude part_size = 0 —
whenever multipart is not disabled, any object size takes the multipart
path with part size 0. -/
theorem c9_part_size_zero_panics :
    (∀ (cl : MpClient) (data : List Nat),
      (put_object_multipart cl data 0).outcome = .panicked)
    ∧ (∀ (cl : MpClient) (data : List Nat) (P : Nat), 1 ≤ P →
      (put_object_multipart cl data P).outcome ≠ .panicked)
    ∧ (∀ object_size : Nat, choose_put_path false object_size 0 = .multipart) := by
  refine ⟨?_, ?_, ?_⟩
  · intro cl data
    rw [put_object_multipart_zero]
  · intro cl data P hP
    exact put_object_multipart_no_panic cl data P (by omega)
  · intro os
    unfold choose_put_path
    rw [if_neg]
    rintro (h | h)
    · exact absurd h (by decide)
    · omega

/-- C9 witness: part size 0 panics on a concrete run, part size 1 does
not, and the selection sends object size 1024 with part size 0 down the
multipart path. -/
theorem c9_witness :
    (put_object_multipart mpClientAllOk [0, 0] 0).outcome = .panicked
    ∧ (1 ≤ 1)
    ∧ (put_object_multipart mpClientAllOk [0, 0] 1).outcome ≠ .panicked
    ∧ choose_put_path false 1024 0 = .multipart :=
  ⟨c9_part_size_zero_panics.1 mpClientAllOk [0, 0], by decide,
   c9_part_size_zero_panics.2.1 mpClientAllOk [0, 0] 1 (by decide),
   c9_part_size_zero_panics.2.2 1024⟩

/-- C10: get_object_range with range_bytes = 0 panics (the usize
subtraction in "bytes=0-{range_bytes - 1}" underflows); with
range_bytes ≥ 1 it issues the ranged request for bytes 0..range_bytes-1;
and the GET dispatch passes a configured range of 0 straight into the
panicking call. -/
theorem c10_range_zero_panics :
    (∀ (cl : GetClient) (key : String), get_object_range cl key 0 = none)
    ∧ (∀ (cl : GetClient) (key : String) (b : Nat), 1 ≤ b →
      get_object_range cl key b = some (cl.getRange key 0 (b - 1)))
    ∧ (∀ (cl : GetClient) (key : String), get_dispatch cl (some 0) key = none) := by
  refine ⟨?_, ?_, ?_⟩
  · intro cl key
    simp [get_object_range]
  · intro cl key b hb
    rw [get_object_range, if_neg (by omega)]
  · intro cl key
    simp [get_dispatch, get_object_range]

/-- C10 witness: range 0 panics, range 4 requests bytes 0..3, and the
dispatch with a configured range of 0 panics. -/
theorem c10_witness :
    get_object_range getClientEmpty "k" 0 = none
    ∧ (1 ≤ 4)
    ∧ get_object_range getClientEmpty "k" 4 = some (getClientEmpty.getRange "k" 0 3)
    ∧ get_dispatch getClientEmpty (some 0) "k" = none :=
  ⟨c10_range_zero_panics.1 getClientEmpty "k", by decide,
   c10_range_zero_panics.2.1 getClientEmpty "k" 4 (by decide),
   c10_range_zero_panics.2.2 getClientEmpty "k"⟩
